import Mathlib

/-!
Verification development for the WireGuard configuration validator
(`src/validators/wireguard.js`).  The JavaScript source is shallowly
embedded: strings are Lean `String`s (lists of characters), the anchored
validation regexes are translated into structural matchers over the
character list, JavaScript `parseInt(x, 10)` becomes an `Option Int`
(`none` plays the role of `NaN`), and the two validation entry points
become total Lean functions producing `{ valid, errors }` records.
-/

set_option maxRecDepth 8000

/-! ## Character-level primitives (JavaScript string operations) -/

/-- JavaScript `str.split(c)` for a single-character separator:
splitting never yields the empty list, and preserves empty fragments. -/
def splitOnChar (c : Char) : List Char → List (List Char)
  | [] => [[]]
  | x :: xs =>
    match splitOnChar c xs with
    | [] => [[]]
    | y :: ys => if x = c then [] :: y :: ys else (x :: y) :: ys

/-- JavaScript `Array.prototype.join(sep)` on lists of characters. -/
def joinList (sep : List Char) : List (List Char) → List Char
  | [] => []
  | [x] => x
  | x :: xs => x ++ sep ++ joinList sep xs

/-- JavaScript `str.includes(c)` for a single character. -/
def containsChar (c : Char) : List Char → Bool
  | [] => false
  | x :: xs => x = c || containsChar c xs

/-- JavaScript `str.trim()` (restricted to the ASCII whitespace the
configs use): drop leading and trailing whitespace characters. -/
def trimList (l : List Char) : List Char :=
  ((l.dropWhile Char.isWhitespace).reverse.dropWhile Char.isWhitespace).reverse

/-- `trim` lifted to `String`. -/
def jsTrim (s : String) : String := String.mk (trimList s.data)

/-- Decimal value of a digit string. -/
def digitsToNat (l : List Char) : Nat :=
  l.foldl (fun a c => a * 10 + (c.toNat - '0'.toNat)) 0

/-- The digit-consuming core of JavaScript `parseInt`: take the leading
run of decimal digits; no digits means `NaN` (`none`). -/
def parseDigits (l : List Char) : Option Nat :=
  let ds := l.takeWhile Char.isDigit
  if ds.isEmpty then none else some (digitsToNat ds)

/-- JavaScript `parseInt(s, 10)`: skip surrounding whitespace, read an
optional sign, then the leading decimal digits; `none` models `NaN`. -/
def jsParseInt (s : String) : Option Int :=
  match trimList s.data with
  | '-' :: r => (parseDigits r).map (fun n => -(n : Int))
  | '+' :: r => (parseDigits r).map (fun n => (n : Int))
  | r => (parseDigits r).map (fun n => (n : Int))

/-- JavaScript `a >= b` where `a` came from `parseInt` (`NaN` compares false). -/
def jsGe : Option Int → Int → Bool
  | some a, b => decide (b ≤ a)
  | none, _ => false

/-- JavaScript `a <= b` where `a` came from `parseInt` (`NaN` compares false). -/
def jsLe : Option Int → Int → Bool
  | some a, b => decide (a ≤ b)
  | none, _ => false

/-- JavaScript `a < b` where `a` came from `parseInt` (`NaN` compares false). -/
def jsLt : Option Int → Int → Bool
  | some a, b => decide (a < b)
  | none, _ => false

/-- JavaScript `a > b` where `a` came from `parseInt` (`NaN` compares false). -/
def jsGt : Option Int → Int → Bool
  | some a, b => decide (b < a)
  | none, _ => false

/-- JavaScript `isNaN` on a `parseInt` result. -/
def jsIsNaN : Option Int → Bool
  | some _ => false
  | none => true

/-! ## Character classes used by the pattern table -/

/-- `[A-Za-z0-9+/]` — the unpadded base64 alphabet. -/
def isB64Char (c : Char) : Bool := c.isAlpha || c.isDigit || c = '+' || c = '/'

/-- `[A-Za-z0-9+/=]` — the padded base64 alphabet. -/
def isB64PadChar (c : Char) : Bool := isB64Char c || c = '='

/-- `[0-9a-fA-F]` — a hexadecimal digit. -/
def isHexDigitChar (c : Char) : Bool :=
  c.isDigit || ('a' ≤ c && c ≤ 'f') || ('A' ≤ c && c ≤ 'F')

/-- `[a-zA-Z0-9.-]` — characters allowed in an endpoint host. -/
def isHostChar (c : Char) : Bool := c.isAlphanum || c = '.' || c = '-'

/-- `[a-zA-Z0-9-]` — characters allowed inside a domain label. -/
def isLabelChar (c : Char) : Bool := c.isAlphanum || c = '-'

/-! ## The pattern table (`patterns` in the source), one matcher per
anchored regex.  Since every separator character is excluded from the
surrounding character classes, each anchored regex is equivalent to a
split on its separator plus per-fragment class checks. -/

/-- `patterns.base64Key`: `^[A-Za-z0-9+/]{42}[A-Za-z0-9+/=]{2}$`. -/
def matchBase64Key (s : String) : Bool :=
  s.data.length == 44 &&
  (s.data.take 42).all isB64Char &&
  (s.data.drop 42).all isB64PadChar

/-- `patterns.ipv4`: `^(\d{1,3}\.){3}\d{1,3}$`. -/
def matchIPv4 (s : String) : Bool :=
  let parts := splitOnChar '.' s.data
  parts.length == 4 &&
  parts.all (fun p => !p.isEmpty && decide (p.length ≤ 3) && p.all Char.isDigit)

/-- `patterns.ipv6`: `^([0-9a-fA-F]{0,4}:){7}[0-9a-fA-F]{0,4}$`. -/
def matchIPv6 (s : String) : Bool :=
  let groups := splitOnChar ':' s.data
  groups.length == 8 &&
  groups.all (fun g => decide (g.length ≤ 4) && g.all isHexDigitChar)

/-- `patterns.cidrV4`: `^(\d{1,3}\.){3}\d{1,3}\/\d{1,2}$`. -/
def matchCidrV4 (s : String) : Bool :=
  match splitOnChar '/' s.data with
  | [addr, pfx] =>
    matchIPv4 (String.mk addr) &&
    !pfx.isEmpty && decide (pfx.length ≤ 2) && pfx.all Char.isDigit
  | _ => false

/-- `patterns.cidrV6`: `^([0-9a-fA-F]{0,4}:){2,7}[0-9a-fA-F]{0,4}\/\d{1,3}$`
(2–7 repetitions of `hexgroup:` and a final hex group, i.e. 3–8
colon-separated groups). -/
def matchCidrV6 (s : String) : Bool :=
  match splitOnChar '/' s.data with
  | [addr, pfx] =>
    let groups := splitOnChar ':' addr
    decide (3 ≤ groups.length) && decide (groups.length ≤ 8) &&
    groups.all (fun g => decide (g.length ≤ 4) && g.all isHexDigitChar) &&
    !pfx.isEmpty && decide (pfx.length ≤ 3) && pfx.all Char.isDigit
  | _ => false

/-- `patterns.endpoint`: `^[a-zA-Z0-9.-]+:\d{1,5}$`. -/
def matchEndpoint (s : String) : Bool :=
  match splitOnChar ':' s.data with
  | [host, port] =>
    !host.isEmpty && host.all isHostChar &&
    !port.isEmpty && decide (port.length ≤ 5) && port.all Char.isDigit
  | _ => false

/-- One domain label: `[a-zA-Z0-9]([a-zA-Z0-9-]{0,61}[a-zA-Z0-9])?`. -/
def matchLabel (l : List Char) : Bool :=
  !l.isEmpty && decide (l.length ≤ 63) &&
  (l.headD 'a').isAlphanum && (l.getLastD 'a').isAlphanum &&
  l.all isLabelChar

/-- `patterns.domain`: dot-separated sequence of labels. -/
def matchDomain (s : String) : Bool :=
  (splitOnChar '.' s.data).all matchLabel

/-! ## Field validators (the `isValid*` helpers in the source) -/

/-- `isValidBase64Key`: `!key` guard, then the base64 pattern on the
trimmed string. -/
def isValidBase64Key (key : String) : Bool :=
  if key = "" then false else matchBase64Key (jsTrim key)

/-- `isValidIPv4`: `!ip` guard, the dotted-quad pattern, then every octet
parsed with `parseInt(_, 10)` must lie in `[0, 255]`. -/
def isValidIPv4 (ip : String) : Bool :=
  if ip = "" then false
  else if !matchIPv4 ip then false
  else
    (splitOnChar '.' ip.data).all fun oct =>
      let num := jsParseInt (String.mk oct)
      jsGe num 0 && jsLe num 255

/-- `cidr.split('/')` destructured as `[ip, prefixPart]`; a missing
second element behaves like the empty string (`parseInt` of it is `NaN`),
matching `undefined` in the source. -/
def cidrParts (s : String) : List Char × List Char :=
  let parts := splitOnChar '/' s.data
  (parts.headD [], parts.getD 1 [])

/-- `isValidCIDR`: try the IPv4-CIDR pattern (address must additionally
pass `isValidIPv4`, prefix in `[0,32]`), then the IPv6-CIDR pattern
(prefix in `[0,128]`, address checked by the shape regex only). -/
def isValidCIDR (cidr : String) : Bool :=
  if cidr = "" then false
  else if matchCidrV4 cidr then
    let ip := String.mk (cidrParts cidr).1
    let pfxNum := jsParseInt (String.mk (cidrParts cidr).2)
    isValidIPv4 ip && jsGe pfxNum 0 && jsLe pfxNum 32
  else if matchCidrV6 cidr then
    let pfxNum := jsParseInt (String.mk (cidrParts cidr).2)
    jsGe pfxNum 0 && jsLe pfxNum 128
  else false

/-- `isValidEndpoint`: shape check, port range `[1, 65535]`, host must be
an IPv4 address or match the domain pattern. -/
def isValidEndpoint (endpoint : String) : Bool :=
  if endpoint = "" then false
  else if !matchEndpoint endpoint then false
  else
    let parts := splitOnChar ':' endpoint.data
    let host := String.mk (parts.headD [])
    let port := jsParseInt (String.mk (parts.getD 1 []))
    if jsLt port 1 || jsGt port 65535 then false
    else isValidIPv4 host || matchDomain host

/-- `isValidPort`: `parseInt` not `NaN` and in `[1, 65535]`. -/
def isValidPort (port : String) : Bool :=
  let num := jsParseInt port
  !jsIsNaN num && jsGe num 1 && jsLe num 65535

/-! ## Section parser (`parseConfigSections`) -/

/-- The two parsed sections, each a field-name/value mapping in
insertion order (the JavaScript object backing). -/
structure ConfigSections where
  Interface : List (String × String)
  Peer : List (String × String)
deriving Repr, DecidableEq

/-- JavaScript `obj[key] = value`: overwrite in place if the key exists,
otherwise append. -/
def storeKV (m : List (String × String)) (k v : String) : List (String × String) :=
  if m.any (fun p => p.1 == k) then
    m.map (fun p => if p.1 == k then (k, v) else p)
  else m ++ [(k, v)]

/-- JavaScript `obj[key]`: `none` models `undefined`. -/
def getField (m : List (String × String)) (k : String) : Option String :=
  (m.find? (fun p => p.1 == k)).map (fun p => p.2)

/-- The field value handed to a validator when the field is truthy. -/
def fieldStr (v : Option String) : String := v.getD ""

/-- JavaScript truthiness of `obj[key]`: present and not the empty string. -/
def truthyField : Option String → Bool
  | none => false
  | some s => !(s == "")

/-- `sections[currentSection][key] = value` for `currentSection` being
`'Interface'` or `'Peer'`. -/
def storeInSection (cs : ConfigSections) (sec k v : String) : ConfigSections :=
  if sec == "Interface" then { cs with Interface := storeKV cs.Interface k v }
  else { cs with Peer := storeKV cs.Peer k v }

/-- `trimmed.startsWith('#')`. -/
def isCommentLine (l : List Char) : Bool :=
  match l with
  | '#' :: _ => true
  | _ => false

/-- The body of the `for (const line of lines)` loop in
`parseConfigSections`: state is the current-section pointer plus the
sections accumulated so far. -/
def parseLine (st : Option String × ConfigSections) (line : String) :
    Option String × ConfigSections :=
  let trimmed := trimList line.data
  if trimmed.isEmpty || isCommentLine trimmed then st
  else if trimmed = "[Interface]".data then (some "Interface", st.2)
  else if trimmed = "[Peer]".data then (some "Peer", st.2)
  else
    match st.1 with
    | some sec =>
      if containsChar '=' trimmed then
        let parts := splitOnChar '=' trimmed
        let key := String.mk (trimList (parts.headD []))
        let value := String.mk (trimList (joinList ['='] parts.tail))
        (st.1, storeInSection st.2 sec key value)
      else st
    | none => st

/-- `parseConfigSections`: split on newlines and fold the loop body over
the lines, starting with no current section and empty sections. -/
def parseConfigSections (configString : String) : ConfigSections :=
  (((splitOnChar '\n' configString.data).map String.mk).foldl
    parseLine (none, ⟨[], []⟩)).2

/-! ## Validation results and error messages -/

/-- The `{ valid, errors }` record both entry points return. -/
structure ValidationResult where
  valid : Bool
  errors : List String
deriving Repr, DecidableEq

/-- A template-literal message: fixed text followed by
`list.join(', ')` of the offending entries. -/
def withList (pre : String) (xs : List String) : String :=
  String.mk (pre.data ++ joinList [',', ' '] (xs.map String.data))

/-! ## Text-config validator (`validateWireguardConfig`)

The source pushes errors onto one array in a fixed textual order; each
`if` block reads exactly one field of the relevant section.  The blocks
are translated one definition per field, and the section bodies are
their ordered concatenation. -/

/-- `[Interface] PrivateKey`: required, then key-format. -/
def privateKeyErrors (v : Option String) : List String :=
  if !truthyField v then ["PrivateKey is required in [Interface]"]
  else if !isValidBase64Key (fieldStr v) then
    ["Invalid PrivateKey format (must be 44-character base64 string)"]
  else []

/-- `[Interface] Address`: required, comma-split, each trimmed entry must
pass CIDR validation; one aggregated message naming the invalid entries. -/
def addressErrors (v : Option String) : List String :=
  if !truthyField v then ["Address is required in [Interface]"]
  else
    let addresses := (splitOnChar ',' (fieldStr v).data).map
      (fun a => String.mk (trimList a))
    let invalid := addresses.filter (fun a => !isValidCIDR a)
    if !invalid.isEmpty then
      [withList "Invalid Address format (use CIDR notation, e.g., 10.0.0.2/24): " invalid]
    else []

/-- `[Interface] DNS`: optional, comma-split, each trimmed entry must
pass IPv4 validation; one aggregated message. -/
def dnsErrors (v : Option String) : List String :=
  if truthyField v then
    let servers := (splitOnChar ',' (fieldStr v).data).map
      (fun d => String.mk (trimList d))
    let invalid := servers.filter (fun d => !isValidIPv4 d)
    if !invalid.isEmpty then [withList "Invalid DNS server format: " invalid]
    else []
  else []

/-- `[Interface] MTU`: optional, `parseInt` in `[576, 65535]`. -/
def mtuErrors (v : Option String) : List String :=
  if truthyField v then
    let mtu := jsParseInt (fieldStr v)
    if jsIsNaN mtu || jsLt mtu 576 || jsGt mtu 65535 then
      ["Invalid MTU value (must be between 576 and 65535)"]
    else []
  else []

/-- `[Peer] PublicKey`: required, then key-format. -/
def publicKeyErrors (v : Option String) : List String :=
  if !truthyField v then ["PublicKey is required in [Peer]"]
  else if !isValidBase64Key (fieldStr v) then
    ["Invalid PublicKey format (must be 44-character base64 string)"]
  else []

/-- `[Peer] Endpoint`: required, then endpoint-format. -/
def endpointErrors (v : Option String) : List String :=
  if !truthyField v then ["Endpoint is required in [Peer]"]
  else if !isValidEndpoint (fieldStr v) then
    ["Invalid Endpoint format (use hostname:port or ip:port, e.g., vpn.example.com:51820)"]
  else []

/-- `[Peer] AllowedIPs`: required, comma-split, each trimmed entry must
pass CIDR validation; one aggregated message. -/
def allowedIPsErrors (v : Option String) : List String :=
  if !truthyField v then ["AllowedIPs is required in [Peer]"]
  else
    let ips := (splitOnChar ',' (fieldStr v).data).map
      (fun a => String.mk (trimList a))
    let invalid := ips.filter (fun a => !isValidCIDR a)
    if !invalid.isEmpty then
      [withList "Invalid AllowedIPs format (use CIDR notation): " invalid]
    else []

/-- `[Peer] PreSharedKey`: optional, key-format when present. -/
def preSharedKeyErrors (v : Option String) : List String :=
  if truthyField v && !isValidBase64Key (fieldStr v) then
    ["Invalid PreSharedKey format (must be 44-character base64 string)"]
  else []

/-- `[Peer] PersistentKeepAlive`: optional, `parseInt` in `[0, 65535]`. -/
def keepAliveErrors (v : Option String) : List String :=
  if truthyField v then
    let keepalive := jsParseInt (fieldStr v)
    if jsIsNaN keepalive || jsLt keepalive 0 || jsGt keepalive 65535 then
      ["Invalid PersistentKeepAlive value (must be between 0 and 65535)"]
    else []
  else []

/-- The per-field checks of the `[Interface]` section, in source order. -/
def interfaceFieldErrors (iface : List (String × String)) : List String :=
  privateKeyErrors (getField iface "PrivateKey") ++
  addressErrors (getField iface "Address") ++
  dnsErrors (getField iface "DNS") ++
  mtuErrors (getField iface "MTU")

/-- The per-field checks of the `[Peer]` section, in source order. -/
def peerFieldErrors (peer : List (String × String)) : List String :=
  publicKeyErrors (getField peer "PublicKey") ++
  endpointErrors (getField peer "Endpoint") ++
  allowedIPsErrors (getField peer "AllowedIPs") ++
  preSharedKeyErrors (getField peer "PreSharedKey") ++
  keepAliveErrors (getField peer "PersistentKeepAlive")

/-- The parse-and-validate path of `validateWireguardConfig` (everything
after the top-level input guard). -/
def validateParsedConfig (s : String) : ValidationResult :=
  let sections := parseConfigSections s
  let ifaceE :=
    if sections.Interface.isEmpty then ["Missing [Interface] section"]
    else interfaceFieldErrors sections.Interface
  let peerE :=
    if sections.Peer.isEmpty then ["Missing [Peer] section"]
    else peerFieldErrors sections.Peer
  let errors := ifaceE ++ peerE
  { valid := errors.isEmpty, errors := errors }

/-- `validateWireguardConfig`.  The argument is `none` when the
JavaScript caller passes a missing or non-string value; the guard
`!configString || typeof configString !== 'string'` also fires on the
empty string (falsy). -/
def validateWireguardConfig (input : Option String) : ValidationResult :=
  match input with
  | none => { valid := false, errors := ["Config is empty or invalid"] }
  | some s =>
    if s = "" then { valid := false, errors := ["Config is empty or invalid"] }
    else validateParsedConfig s

/-! ## Form validator (`validateFormData`) -/

/-- The flat form record: every field is an optional string
(`none` models an absent property). -/
structure FormRecord where
  PrivateKey : Option String
  Address : Option String
  DNS : Option String
  PublicKey : Option String
  Endpoint : Option String
  AllowedIPs : Option String
  PreSharedKey : Option String
  PersistentKeepAlive : Option String
deriving Repr, DecidableEq

/-- Form `PrivateKey`: required, then key-format. -/
def formPrivateKeyErrors (v : Option String) : List String :=
  if !truthyField v then ["PrivateKey is required"]
  else if !isValidBase64Key (fieldStr v) then ["Invalid PrivateKey format"]
  else []

/-- Form `Address`: required, validated as a single CIDR value
(not comma-split). -/
def formAddressErrors (v : Option String) : List String :=
  if !truthyField v then ["Address is required"]
  else if !isValidCIDR (fieldStr v) then
    ["Invalid Address format (use CIDR notation, e.g., 10.0.0.2/24)"]
  else []

/-- Form `DNS`: optional, comma-split IPv4 list, aggregated message
(same message as the text path). -/
def formDNSErrors (v : Option String) : List String :=
  dnsErrors v

/-- Form `PublicKey`: required, then key-format. -/
def formPublicKeyErrors (v : Option String) : List String :=
  if !truthyField v then ["PublicKey is required"]
  else if !isValidBase64Key (fieldStr v) then ["Invalid PublicKey format"]
  else []

/-- Form `Endpoint`: required, then endpoint-format. -/
def formEndpointErrors (v : Option String) : List String :=
  if !truthyField v then ["Endpoint is required"]
  else if !isValidEndpoint (fieldStr v) then
    ["Invalid Endpoint format (use hostname:port or ip:port)"]
  else []

/-- Form `AllowedIPs`: required, comma-split CIDR list, aggregated message. -/
def formAllowedIPsErrors (v : Option String) : List String :=
  if !truthyField v then ["AllowedIPs is required"]
  else
    let ips := (splitOnChar ',' (fieldStr v).data).map
      (fun a => String.mk (trimList a))
    let invalid := ips.filter (fun a => !isValidCIDR a)
    if !invalid.isEmpty then [withList "Invalid AllowedIPs format: " invalid]
    else []

/-- Form `PreSharedKey`: optional, key-format when present. -/
def formPreSharedKeyErrors (v : Option String) : List String :=
  if truthyField v && !isValidBase64Key (fieldStr v) then
    ["Invalid PreSharedKey format"]
  else []

/-- Form `PersistentKeepAlive`: optional, `parseInt` in `[0, 65535]`. -/
def formKeepAliveErrors (v : Option String) : List String :=
  if truthyField v then
    let keepalive := jsParseInt (fieldStr v)
    if jsIsNaN keepalive || jsLt keepalive 0 || jsGt keepalive 65535 then
      ["Invalid PersistentKeepAlive value (must be 0-65535)"]
    else []
  else []

/-- The form checks in source order (Interface fields, then Peer fields). -/
def formFieldErrors (fd : FormRecord) : List String :=
  formPrivateKeyErrors fd.PrivateKey ++
  formAddressErrors fd.Address ++
  formDNSErrors fd.DNS ++
  formPublicKeyErrors fd.PublicKey ++
  formEndpointErrors fd.Endpoint ++
  formAllowedIPsErrors fd.AllowedIPs ++
  formPreSharedKeyErrors fd.PreSharedKey ++
  formKeepAliveErrors fd.PersistentKeepAlive

/-- The result `validateFormData` builds for an object argument. -/
def validateFormRecord (fd : FormRecord) : ValidationResult :=
  let errors := formFieldErrors fd
  { valid := errors.isEmpty, errors := errors }

/-- The possible JavaScript arguments of `validateFormData`: `null` or
`undefined` (`nullish`), or an object carrying the form fields. -/
inductive FormInput where
  | nullish : FormInput
  | record : FormRecord → FormInput

/-- `validateFormData`.  On a `null`/`undefined` argument the very first
property access `formData.PrivateKey` throws a `TypeError` in
JavaScript; the thrown exception is modelled with `Except.error`. -/
def validateFormData : FormInput → Except String ValidationResult
  | FormInput.nullish =>
    Except.error "TypeError: Cannot read properties of null (reading PrivateKey)"
  | FormInput.record fd => Except.ok (validateFormRecord fd)

/-- `Except` success test (JavaScript: the call returned instead of throwing). -/
def exceptOk : Except String ValidationResult → Bool
  | Except.ok _ => true
  | Except.error _ => false

/-! ## Spec-side models

The definitions below follow the wording of the specification and of the
claims under scrutiny (not the source); the theorems compare them with
the source translation above. -/

/-- "parsed as an integer lies in `[lo, hi]`" for a `parseInt` result. -/
def inIntRange (v : Option Int) (lo hi : Int) : Bool :=
  match v with
  | some n => decide (lo ≤ n) && decide (n ≤ hi)
  | none => false

/-- Modelled from the spec: claim branch (a) — the string matches the
IPv4-CIDR shape, its address part passes IPv4 validation, and its prefix
parsed as an integer lies in `[0, 32]`. -/
def claimCidrV4 (s : String) : Bool :=
  matchCidrV4 s &&
  isValidIPv4 (String.mk (cidrParts s).1) &&
  inIntRange (jsParseInt (String.mk (cidrParts s).2)) 0 32

/-- Modelled from the spec: the claimed IPv6-CIDR shape read literally —
"2–7 colon-separated hex groups followed by `/prefix`", i.e. the address
part splits on `:` into 2 to 7 groups of 0–4 hex digits. -/
def claimCidrV6Shape (s : String) : Bool :=
  match splitOnChar '/' s.data with
  | [addr, pfx] =>
    let groups := splitOnChar ':' addr
    decide (2 ≤ groups.length) && decide (groups.length ≤ 7) &&
    groups.all (fun g => decide (g.length ≤ 4) && g.all isHexDigitChar) &&
    !pfx.isEmpty && decide (pfx.length ≤ 3) && pfx.all Char.isDigit
  | _ => false

/-- Modelled from the spec: claim branch (b) read literally — the claimed
IPv6-CIDR shape with the prefix parsed as an integer in `[0, 128]`. -/
def claimCidrV6 (s : String) : Bool :=
  claimCidrV6Shape s && inIntRange (jsParseInt (String.mk (cidrParts s).2)) 0 128

/-- The IPv6-CIDR shape with the group count the regex actually enforces:
3–8 colon-separated hex groups (2–7 colons). -/
def specCidrV6Shape (s : String) : Bool :=
  match splitOnChar '/' s.data with
  | [addr, pfx] =>
    let groups := splitOnChar ':' addr
    decide (3 ≤ groups.length) && decide (groups.length ≤ 8) &&
    groups.all (fun g => decide (g.length ≤ 4) && g.all isHexDigitChar) &&
    !pfx.isEmpty && decide (pfx.length ≤ 3) && pfx.all Char.isDigit
  | _ => false

/-- Amended claim branch (b): the corrected IPv6-CIDR shape with the
prefix parsed as an integer in `[0, 128]`. -/
def specCidrV6 (s : String) : Bool :=
  specCidrV6Shape s && inIntRange (jsParseInt (String.mk (cidrParts s).2)) 0 128

/-- The key validator on an arbitrary JavaScript argument: `none` models
a missing or non-string value (rejected by the `typeof` guard). -/
def isValidBase64KeyJS : Option String → Bool
  | none => false
  | some s => isValidBase64Key s

/-! ## Lemmas about the character-level primitives -/

/-- Splitting never produces the empty list of fragments. -/
theorem splitOnChar_ne_nil (c : Char) (l : List Char) : splitOnChar c l ≠ [] := by
  cases l with
  | nil => simp [splitOnChar]
  | cons x xs =>
    simp only [splitOnChar]
    cases h : splitOnChar c xs with
    | nil => simp
    | cons y ys => by_cases hx : x = c <;> simp [hx]

/-- Every character of the input is the separator or lies in some fragment. -/
theorem mem_splitOnChar (c : Char) :
    ∀ (l : List Char) (x : Char), x ∈ l →
      x = c ∨ ∃ p, p ∈ splitOnChar c l ∧ x ∈ p := by
  intro l
  induction l with
  | nil => intro x hx; cases hx
  | cons y ys ih =>
    intro x hx
    cases hs : splitOnChar c ys with
    | nil => exact absurd hs (splitOnChar_ne_nil c ys)
    | cons r0 rt =>
      rcases List.mem_cons.mp hx with heq | hmem
      · by_cases hy : y = c
        · left; rw [heq, hy]
        · right
          refine ⟨y :: r0, ?_, ?_⟩
          · simp [splitOnChar, hs, hy]
          · rw [heq]; exact List.mem_cons_self y r0
      · rcases ih x hmem with h | ⟨p, hp, hxp⟩
        · left; exact h
        · right
          rw [hs] at hp
          by_cases hy : y = c
          · refine ⟨p, ?_, hxp⟩
            simp only [splitOnChar, hs, if_pos hy]
            exact List.mem_cons_of_mem _ hp
          · rcases List.mem_cons.mp hp with rfl | hp'
            · refine ⟨y :: p, ?_, List.mem_cons_of_mem y hxp⟩
              simp [splitOnChar, hs, hy]
            · refine ⟨p, ?_, hxp⟩
              simp only [splitOnChar, hs, if_neg hy]
              exact List.mem_cons_of_mem _ hp'

/-- Two or more fragments force an occurrence of the separator. -/
theorem mem_of_two_le_splitOnChar (c : Char) :
    ∀ l : List Char, 2 ≤ (splitOnChar c l).length → c ∈ l := by
  intro l
  induction l with
  | nil => intro h; simp [splitOnChar] at h
  | cons y ys ih =>
    intro h
    by_cases hy : y = c
    · exact hy ▸ List.mem_cons_self y ys
    · cases hs : splitOnChar c ys with
      | nil => exact absurd hs (splitOnChar_ne_nil c ys)
      | cons r0 rt =>
        refine List.mem_cons_of_mem y (ih ?_)
        rw [hs]
        simp only [splitOnChar, hs, if_neg hy, List.length_cons] at h ⊢
        omega

/-- Splitting at the first separator occurrence. -/
theorem splitOnChar_append_cons (c : Char) (v : List Char) :
    ∀ k : List Char, c ∉ k →
      splitOnChar c (k ++ c :: v) = k :: splitOnChar c v := by
  intro k
  induction k with
  | nil =>
    intro _
    cases hs : splitOnChar c v with
    | nil => exact absurd hs (splitOnChar_ne_nil c v)
    | cons r0 rt => simp [splitOnChar, hs]
  | cons a as ih =>
    intro hmem
    have ha : ¬(a = c) := fun h => hmem (h ▸ List.mem_cons_self a as)
    have has : c ∉ as := fun h => hmem (List.mem_cons_of_mem a h)
    simp only [List.cons_append, splitOnChar, List.append_eq]
    rw [ih has]
    simp [ha]

/-- Joining with the separator undoes splitting on it. -/
theorem joinList_splitOnChar (c : Char) :
    ∀ l : List Char, joinList [c] (splitOnChar c l) = l := by
  intro l
  induction l with
  | nil => rfl
  | cons y ys ih =>
    cases hs : splitOnChar c ys with
    | nil => exact absurd hs (splitOnChar_ne_nil c ys)
    | cons r0 rt =>
      rw [hs] at ih
      by_cases hy : y = c
      · simp only [splitOnChar, hs, if_pos hy]
        cases rt with
        | nil => simp [joinList] at ih ⊢; simp [ih, hy]
        | cons z zs =>
          simp only [joinList, List.nil_append, List.cons_append] at ih ⊢
          simp [ih, hy]
      · simp only [splitOnChar, hs, if_neg hy]
        cases rt with
        | nil => simp [joinList] at ih ⊢; rw [ih]
        | cons z zs =>
          simp only [joinList, List.cons_append] at ih ⊢
          rw [ih]

/-- `containsChar` agrees with list membership. -/
theorem containsChar_iff (c : Char) :
    ∀ l : List Char, containsChar c l = true ↔ c ∈ l := by
  intro l
  induction l with
  | nil => simp [containsChar]
  | cons x xs ih =>
    simp only [containsChar, Bool.or_eq_true, decide_eq_true_eq, ih, List.mem_cons]
    constructor
    · rintro (h | h)
      · exact Or.inl h.symm
      · exact Or.inr h
    · rintro (h | h)
      · exact Or.inl h.symm
      · exact Or.inr h

/-! ## Shape lemmas for the CIDR matchers -/

/-- Unpacking a successful IPv4-CIDR match. -/
theorem matchCidrV4_elim (s : String) (h : matchCidrV4 s = true) :
    ∃ addr pfx, splitOnChar '/' s.data = [addr, pfx] ∧
      matchIPv4 (String.mk addr) = true ∧ pfx.all Char.isDigit = true := by
  unfold matchCidrV4 at h
  rcases hsplit : splitOnChar '/' s.data with _ | ⟨a, _ | ⟨p, _ | ⟨q, rest⟩⟩⟩ <;>
    rw [hsplit] at h <;> simp only [Bool.and_eq_true] at h
  · exact Bool.noConfusion h
  · exact Bool.noConfusion h
  · exact ⟨a, p, rfl, h.1.1.1, h.2⟩
  · exact Bool.noConfusion h

/-- Unpacking a successful IPv6-CIDR match. -/
theorem matchCidrV6_elim (s : String) (h : matchCidrV6 s = true) :
    ∃ addr pfx, splitOnChar '/' s.data = [addr, pfx] ∧
      3 ≤ (splitOnChar ':' addr).length ∧
      (splitOnChar ':' addr).all (fun g => decide (g.length ≤ 4) && g.all isHexDigitChar) = true ∧
      pfx.all Char.isDigit = true := by
  unfold matchCidrV6 at h
  rcases hsplit : splitOnChar '/' s.data with _ | ⟨a, _ | ⟨p, _ | ⟨q, rest⟩⟩⟩ <;>
    rw [hsplit] at h <;> simp only [Bool.and_eq_true] at h
  · exact Bool.noConfusion h
  · exact Bool.noConfusion h
  · exact ⟨a, p, rfl, of_decide_eq_true h.1.1.1.1.1, h.1.1.1.2, h.2⟩
  · exact Bool.noConfusion h

/-- A string matching the dotted-quad pattern consists of digits and dots. -/
theorem matchIPv4_chars (s : String) (h : matchIPv4 s = true) :
    ∀ x ∈ s.data, x.isDigit = true ∨ x = '.' := by
  intro x hx
  unfold matchIPv4 at h
  simp only [Bool.and_eq_true, List.all_eq_true] at h
  rcases mem_splitOnChar '.' s.data x hx with hsep | ⟨p, hp, hxp⟩
  · exact Or.inr hsep
  · exact Or.inl ((h.2 p hp).2 x hxp)

/-- A string matching the IPv4-CIDR pattern consists of digits, dots
and slashes. -/
theorem matchCidrV4_chars (s : String) (h : matchCidrV4 s = true) :
    ∀ x ∈ s.data, x.isDigit = true ∨ x = '.' ∨ x = '/' := by
  intro x hx
  obtain ⟨addr, pfx, hsplit, haddr, hpfx⟩ := matchCidrV4_elim s h
  rcases mem_splitOnChar '/' s.data x hx with hsep | ⟨p, hp, hxp⟩
  · exact Or.inr (Or.inr hsep)
  · rw [hsplit] at hp
    rcases List.mem_cons.mp hp with rfl | hp'
    · rcases matchIPv4_chars (String.mk p) haddr x hxp with hd | hdot
      · exact Or.inl hd
      · exact Or.inr (Or.inl hdot)
    · rcases List.mem_cons.mp hp' with rfl | hp''
      · exact Or.inl (List.all_eq_true.mp hpfx x hxp)
      · cases hp''

/-- A string matching the IPv6-CIDR pattern consists of hex digits,
colons and slashes. -/
theorem matchCidrV6_chars (s : String) (h : matchCidrV6 s = true) :
    ∀ x ∈ s.data, isHexDigitChar x = true ∨ x = ':' ∨ x = '/' := by
  intro x hx
  obtain ⟨addr, pfx, hsplit, _, hgroups, hpfx⟩ := matchCidrV6_elim s h
  rcases mem_splitOnChar '/' s.data x hx with hsep | ⟨p, hp, hxp⟩
  · exact Or.inr (Or.inr hsep)
  · rw [hsplit] at hp
    rcases List.mem_cons.mp hp with rfl | hp'
    · rcases mem_splitOnChar ':' p x hxp with hcolon | ⟨g, hg, hxg⟩
      · exact Or.inr (Or.inl hcolon)
      · have := List.all_eq_true.mp hgroups g hg
        simp only [Bool.and_eq_true] at this
        exact Or.inl (List.all_eq_true.mp this.2 x hxg)
    · rcases List.mem_cons.mp hp' with rfl | hp''
      · have hd := List.all_eq_true.mp hpfx x hxp
        exact Or.inl (by simp [isHexDigitChar, hd])
      · cases hp''

/-- The two CIDR branch patterns are mutually exclusive: an IPv4-CIDR
match leaves no colon for the IPv6 shape. -/
theorem matchCidrV4_not_v6 (s : String) (h4 : matchCidrV4 s = true) :
    matchCidrV6 s = false := by
  cases h6 : matchCidrV6 s with
  | false => rfl
  | true =>
    exfalso
    obtain ⟨addr, pfx, hsplit, haddr, _⟩ := matchCidrV4_elim s h4
    obtain ⟨addr', pfx', hsplit', hlen, _, _⟩ := matchCidrV6_elim s h6
    rw [hsplit] at hsplit'
    injection hsplit' with h1 h2
    have hcolon : ':' ∈ addr := by
      rw [h1]
      exact mem_of_two_le_splitOnChar ':' addr' (by omega)
    rcases matchIPv4_chars (String.mk addr) haddr ':' hcolon with hd | hdot
    · simp at hd
    · simp at hdot

/-- Any string containing a comma fails CIDR validation. -/
theorem isValidCIDR_comma_false (s : String) (h : ',' ∈ s.data) :
    isValidCIDR s = false := by
  have h4 : matchCidrV4 s = false := by
    cases hc : matchCidrV4 s with
    | false => rfl
    | true =>
      exfalso
      rcases matchCidrV4_chars s hc ',' h with hd | hdot | hslash <;> simp_all
  have h6 : matchCidrV6 s = false := by
    cases hc : matchCidrV6 s with
    | false => rfl
    | true =>
      exfalso
      rcases matchCidrV6_chars s hc ',' h with hd | hcolon | hslash <;>
        simp_all [isHexDigitChar]
  simp [isValidCIDR, h4, h6]

/-! ## Lemmas about the object store -/

/-- Looking up an overwritten key finds the new value. -/
theorem find?_map_overwrite (key val : String) :
    ∀ m : List (String × String), m.any (fun p => p.1 == key) = true →
      List.find? (fun p => p.1 == key)
        (m.map (fun p => if p.1 == key then (key, val) else p)) = some (key, val) := by
  intro m
  induction m with
  | nil => intro h; simp at h
  | cons q qs ih =>
    intro h
    by_cases hq : (q.1 == key) = true
    · simp only [List.map_cons, if_pos hq]
      rw [List.find?_cons_of_pos]
      simp
    · have h' : qs.any (fun p => p.1 == key) = true := by
        simp only [List.any_cons, Bool.or_eq_true] at h
        exact h.resolve_left hq
      simp only [List.map_cons, if_neg hq]
      rw [List.find?_cons_of_neg, ih h']
      simpa using hq

/-- Looking up a freshly appended key finds its value. -/
theorem find?_append_new (key val : String) :
    ∀ m : List (String × String), m.any (fun p => p.1 == key) = false →
      List.find? (fun p => p.1 == key) (m ++ [(key, val)]) = some (key, val) := by
  intro m
  induction m with
  | nil => intro _; simp [List.find?]
  | cons q qs ih =>
    intro h
    simp only [List.any_cons, Bool.or_eq_false_iff] at h
    simp only [List.cons_append]
    rw [List.find?_cons_of_neg, ih h.2]
    simp [h.1]

/-- Storing a value and reading the same key back yields that value:
the last write wins. -/
theorem getField_storeKV (m : List (String × String)) (key val : String) :
    getField (storeKV m key val) key = some val := by
  unfold getField storeKV
  by_cases h : m.any (fun p => p.1 == key) = true
  · rw [if_pos h, find?_map_overwrite key val m h]
    rfl
  · rw [if_neg h, find?_append_new key val m (Bool.eq_false_iff.mpr h)]
    rfl

/-! ## Claim C1 — the CIDR validator -/

/-- The two IPv6-CIDR shape readings differ only in the stated group
count; the corrected one coincides with the source pattern. -/
theorem specCidrV6Shape_eq_matchCidrV6 (s : String) :
    specCidrV6Shape s = matchCidrV6 s := rfl

/-- C1, counterexample: at `"1:2/64"` (two colon-separated hex groups,
prefix 64) the claimed characterization accepts via branch (b) while the
source validator rejects — the regex requires at least two colons, i.e.
at least three groups. -/
theorem isValidCIDR_claim_cex :
    ¬ (isValidCIDR "1:2/64" = (claimCidrV4 "1:2/64" || claimCidrV6 "1:2/64")) ∧
    isValidCIDR "1:2/64" = false ∧ claimCidrV6 "1:2/64" = true ∧
    isValidCIDR "1:2:3:4:5:6:7:8/64" = true ∧
    claimCidrV6 "1:2:3:4:5:6:7:8/64" = false := by
  refine ⟨by decide, by decide, by decide, by decide, by decide⟩

/-- C1, amended: for every string, the CIDR validator returns true iff
either (a) the string matches the IPv4-CIDR shape, its address part
passes IPv4 validation and its prefix parsed as an integer lies in
`[0, 32]`, or (b) the string matches the IPv6-CIDR shape of 3–8
colon-separated hex groups followed by `/prefix` with the prefix parsed
as an integer in `[0, 128]` (the address portion only shape-checked);
every other string is invalid. -/
theorem isValidCIDR_spec (s : String) :
    isValidCIDR s = (claimCidrV4 s || specCidrV6 s) := by
  by_cases hE : s = ""
  · subst hE; decide
  · unfold isValidCIDR claimCidrV4 specCidrV6
    rw [specCidrV6Shape_eq_matchCidrV6, if_neg hE]
    by_cases h4 : matchCidrV4 s = true
    · have h6 := matchCidrV4_not_v6 s h4
      rw [h4, h6]
      simp only [if_pos rfl, Bool.true_and, Bool.false_and, Bool.or_false]
      cases hp : jsParseInt (String.mk (cidrParts s).2) with
      | none => simp [jsGe, jsLe, inIntRange]
      | some n => simp [jsGe, jsLe, inIntRange, Bool.and_assoc]
    · have h4' : matchCidrV4 s = false := Bool.eq_false_iff.mpr h4
      rw [h4']
      simp only [Bool.false_eq_true, if_false, Bool.false_and, Bool.false_or]
      by_cases h6 : matchCidrV6 s = true
      · rw [h6]
        simp only [if_pos rfl, Bool.true_and]
        cases hp : jsParseInt (String.mk (cidrParts s).2) with
        | none => simp [jsGe, jsLe, inIntRange]
        | some n => simp [jsGe, jsLe, inIntRange]
      · have h6' : matchCidrV6 s = false := Bool.eq_false_iff.mpr h6
        rw [h6']
        simp

/-! ## Claim C2 — the key-format validator -/

/-- C2: the key-format validator accepts exactly the inputs that are
strings whose trimmed form has length 44 and consists of 42 unpadded
base64 characters followed by 2 padded base64 characters; any
non-string, missing, or empty input is rejected. -/
theorem isValidBase64Key_spec (k : Option String) :
    isValidBase64KeyJS k = true ↔
      ∃ s : String, k = some s ∧
        (jsTrim s).data.length = 44 ∧
        ((jsTrim s).data.take 42).all isB64Char = true ∧
        ((jsTrim s).data.drop 42).all isB64PadChar = true := by
  cases k with
  | none => simp [isValidBase64KeyJS]
  | some s =>
    simp only [isValidBase64KeyJS, Option.some.injEq]
    constructor
    · intro h
      refine ⟨s, rfl, ?_⟩
      unfold isValidBase64Key at h
      by_cases hE : s = ""
      · rw [if_pos hE] at h; exact Bool.noConfusion h
      · rw [if_neg hE] at h
        unfold matchBase64Key at h
        simp only [Bool.and_eq_true, beq_iff_eq] at h
        exact ⟨h.1.1, h.1.2, h.2⟩
    · rintro ⟨t, ht, hlen, h42, h2⟩
      subst ht
      have hE : s ≠ "" := by
        intro h
        subst h
        simp [jsTrim, trimList] at hlen
      unfold isValidBase64Key matchBase64Key
      rw [if_neg hE]
      simp [hlen, h42, h2]

/-! ## Claim C3 — the top-level input guard -/

/-- C3, counterexample: the empty string is a string input, yet the
validator returns the single generic error without parsing; parsing the
empty string per the section rules would give a different result. -/
theorem validateWireguardConfig_empty_cex :
    validateWireguardConfig (some "") ≠ validateParsedConfig "" ∧
    validateWireguardConfig (some "") =
      { valid := false, errors := ["Config is empty or invalid"] } ∧
    validateParsedConfig "" =
      { valid := false,
        errors := ["Missing [Interface] section", "Missing [Peer] section"] } := by
  refine ⟨by decide, by decide, by decide⟩

/-- C3, amended: the validator returns immediately with exactly the one
error "Config is empty or invalid" when the input is missing, not a
string, or the empty string (the falsy guard); every nonempty string
input is parsed and validated per the section rules. -/
theorem validateWireguardConfig_guard :
    validateWireguardConfig none =
      { valid := false, errors := ["Config is empty or invalid"] } ∧
    validateWireguardConfig (some "") =
      { valid := false, errors := ["Config is empty or invalid"] } ∧
    ∀ s : String, s ≠ "" → validateWireguardConfig (some s) = validateParsedConfig s := by
  refine ⟨rfl, rfl, ?_⟩
  intro s hs
  simp only [validateWireguardConfig]
  rw [if_neg hs]

/-- Witness for C3's amended theorem at the concrete input `"[Peer]"`. -/
theorem validateWireguardConfig_guard_witness :
    validateWireguardConfig (some "[Peer]") = validateParsedConfig "[Peer]" :=
  validateWireguardConfig_guard.2.2 "[Peer]" (by decide)

/-! ## Claim C4 — missing-section short-circuit -/

/-- C4, counterexample: for the empty input string the `[Peer]` section
is absent after parsing, yet the result carries no Peer-related error at
all — only the generic guard error. -/
theorem missingSection_empty_input_cex :
    (parseConfigSections "").Peer = [] ∧
    (parseConfigSections "").Interface = [] ∧
    (validateWireguardConfig (some "")).errors = ["Config is empty or invalid"] ∧
    "Missing [Peer] section" ∉ (validateWireguardConfig (some "")).errors ∧
    "Missing [Interface] section" ∉ (validateWireguardConfig (some "")).errors := by
  refine ⟨by decide, by decide, by decide, by decide, by decide⟩

/-- C4, amended: for every nonempty input string whose parsed `[Peer]`
section is empty, the error list is exactly the Interface part followed
by the single missing-`[Peer]` error (so no Peer per-field errors), and
symmetrically when the parsed `[Interface]` section is empty. -/
theorem missingSection_single_error (s : String) (hs : s ≠ "") :
    ((parseConfigSections s).Peer = [] →
      (validateWireguardConfig (some s)).errors =
        (if (parseConfigSections s).Interface.isEmpty then ["Missing [Interface] section"]
         else interfaceFieldErrors (parseConfigSections s).Interface) ++
        ["Missing [Peer] section"]) ∧
    ((parseConfigSections s).Interface = [] →
      (validateWireguardConfig (some s)).errors =
        ["Missing [Interface] section"] ++
        (if (parseConfigSections s).Peer.isEmpty then ["Missing [Peer] section"]
         else peerFieldErrors (parseConfigSections s).Peer)) := by
  constructor
  · intro hp
    simp only [validateWireguardConfig]
    rw [if_neg hs]
    unfold validateParsedConfig
    simp [hp]
  · intro hi
    simp only [validateWireguardConfig]
    rw [if_neg hs]
    unfold validateParsedConfig
    simp [hi]

/-- Witness for C4's amended theorem at the concrete input
`"[Interface]"` (both sections parse to empty there). -/
theorem missingSection_single_error_witness :
    (validateWireguardConfig (some "[Interface]")).errors =
      (if (parseConfigSections "[Interface]").Interface.isEmpty
       then ["Missing [Interface] section"]
       else interfaceFieldErrors (parseConfigSections "[Interface]").Interface) ++
      ["Missing [Peer] section"] :=
  (missingSection_single_error "[Interface]" (by decide)).1 (by decide)

/-! ## Claim C5 — deterministic error order -/

/-- C5: for every input, the error list is the Interface-section part
followed by the Peer-section part, and within each section the errors
come from the per-field checks in the fixed field order (PrivateKey,
Address, DNS, MTU; PublicKey, Endpoint, AllowedIPs, PreSharedKey,
PersistentKeepAlive), each check depending only on its own field; the
guarded inputs yield the single generic error (no section errors at
all, so the ordering holds vacuously there). -/
theorem validateWireguardConfig_error_order :
    (∀ s : String, s ≠ "" →
      (validateWireguardConfig (some s)).errors =
        (if (parseConfigSections s).Interface.isEmpty
         then ["Missing [Interface] section"]
         else
           privateKeyErrors (getField (parseConfigSections s).Interface "PrivateKey") ++
           addressErrors (getField (parseConfigSections s).Interface "Address") ++
           dnsErrors (getField (parseConfigSections s).Interface "DNS") ++
           mtuErrors (getField (parseConfigSections s).Interface "MTU")) ++
        (if (parseConfigSections s).Peer.isEmpty
         then ["Missing [Peer] section"]
         else
           publicKeyErrors (getField (parseConfigSections s).Peer "PublicKey") ++
           endpointErrors (getField (parseConfigSections s).Peer "Endpoint") ++
           allowedIPsErrors (getField (parseConfigSections s).Peer "AllowedIPs") ++
           preSharedKeyErrors (getField (parseConfigSections s).Peer "PreSharedKey") ++
           keepAliveErrors (getField (parseConfigSections s).Peer "PersistentKeepAlive"))) ∧
    (validateWireguardConfig none).errors = ["Config is empty or invalid"] ∧
    (validateWireguardConfig (some "")).errors = ["Config is empty or invalid"] := by
  refine ⟨?_, rfl, rfl⟩
  intro s hs
  simp only [validateWireguardConfig]
  rw [if_neg hs]
  rfl

/-- Witness for C5 at the concrete input `"[Peer]"`. -/
theorem validateWireguardConfig_error_order_witness :
    (validateWireguardConfig (some "[Peer]")).errors =
      (if (parseConfigSections "[Peer]").Interface.isEmpty
       then ["Missing [Interface] section"]
       else
         privateKeyErrors (getField (parseConfigSections "[Peer]").Interface "PrivateKey") ++
         addressErrors (getField (parseConfigSections "[Peer]").Interface "Address") ++
         dnsErrors (getField (parseConfigSections "[Peer]").Interface "DNS") ++
         mtuErrors (getField (parseConfigSections "[Peer]").Interface "MTU")) ++
      (if (parseConfigSections "[Peer]").Peer.isEmpty
       then ["Missing [Peer] section"]
       else
         publicKeyErrors (getField (parseConfigSections "[Peer]").Peer "PublicKey") ++
         endpointErrors (getField (parseConfigSections "[Peer]").Peer "Endpoint") ++
         allowedIPsErrors (getField (parseConfigSections "[Peer]").Peer "AllowedIPs") ++
         preSharedKeyErrors (getField (parseConfigSections "[Peer]").Peer "PreSharedKey") ++
         keepAliveErrors (getField (parseConfigSections "[Peer]").Peer "PersistentKeepAlive")) :=
  validateWireguardConfig_error_order.1 "[Peer]" (by decide)

/-! ## Claim C6 — form path rejects comma-joined Address lists -/

/-- An `Address` form value that is present but fails CIDR validation
produces exactly the invalid-format error. -/
theorem formAddressErrors_invalid (t : String) (hne : t ≠ "")
    (hinv : isValidCIDR t = false) :
    formAddressErrors (some t) =
      ["Invalid Address format (use CIDR notation, e.g., 10.0.0.2/24)"] := by
  unfold formAddressErrors
  have htr : truthyField (some t) = true := by simp [truthyField, hne]
  rw [htr]
  simp [fieldStr, hinv]

/-- C6: for every form record whose `Address` is the comma-join of two
or more (individually valid) CIDR entries, the form validator reports
the invalid-Address error and the result is invalid — the form path
validates `Address` as one single CIDR value and a comma can occur in
neither CIDR shape. -/
theorem formData_comma_address (fd : FormRecord) (l : List String)
    (h2 : 2 ≤ l.length)
    (hv : ∀ a ∈ l, isValidCIDR a = true)
    (hA : fd.Address = some (String.mk (joinList [','] (l.map String.data)))) :
    "Invalid Address format (use CIDR notation, e.g., 10.0.0.2/24)" ∈ formFieldErrors fd ∧
    (validateFormRecord fd).valid = false := by
  obtain ⟨a, l', rfl⟩ : ∃ a l', l = a :: l' := by
    cases l with
    | nil => simp at h2
    | cons a l' => exact ⟨a, l', rfl⟩
  obtain ⟨b, l'', rfl⟩ : ∃ b l'', l' = b :: l'' := by
    cases l' with
    | nil => simp at h2
    | cons b l'' => exact ⟨b, l'', rfl⟩
  have hcomma : ',' ∈ (String.mk (joinList [','] ((a :: b :: l'').map String.data))).data := by
    show ',' ∈ a.data ++ [','] ++ joinList [','] (b.data :: l''.map String.data)
    exact List.mem_append_left _ (List.mem_append_right a.data (by simp))
  have hinv : isValidCIDR (String.mk (joinList [','] ((a :: b :: l'').map String.data))) = false :=
    isValidCIDR_comma_false _ hcomma
  have hjne : ¬ (String.mk (joinList [','] ((a :: b :: l'').map String.data)) = "") := by
    intro h
    rw [h] at hcomma
    cases hcomma
  have haddr : formAddressErrors fd.Address =
      ["Invalid Address format (use CIDR notation, e.g., 10.0.0.2/24)"] := by
    rw [hA]
    exact formAddressErrors_invalid _ hjne hinv
  have hmem : "Invalid Address format (use CIDR notation, e.g., 10.0.0.2/24)" ∈
      formFieldErrors fd := by
    unfold formFieldErrors
    rw [haddr]
    simp
  refine ⟨hmem, ?_⟩
  show (formFieldErrors fd).isEmpty = false
  cases hfe : formFieldErrors fd with
  | nil => rw [hfe] at hmem; cases hmem
  | cons e es => rfl

/-- Witness for C6 at the two-entry list
`["10.0.0.0/24", "10.0.1.0/24"]`. -/
theorem formData_comma_address_witness :
    "Invalid Address format (use CIDR notation, e.g., 10.0.0.2/24)" ∈
      formFieldErrors
        ⟨none, some "10.0.0.0/24,10.0.1.0/24", none, none, none, none, none, none⟩ ∧
    (validateFormRecord
        ⟨none, some "10.0.0.0/24,10.0.1.0/24", none, none, none, none, none, none⟩).valid
      = false :=
  formData_comma_address
    ⟨none, some "10.0.0.0/24,10.0.1.0/24", none, none, none, none, none, none⟩
    ["10.0.0.0/24", "10.0.1.0/24"] (by decide) (by decide) (by decide)

/-! ## Claim C7 — key/value line handling in the section parser -/

/-- C7: when a current section is set and the trimmed line decomposes as
`k ++ '=' :: v` with no `=` in `k` (so the split is at the first `=`;
the stored value may itself contain `=`), and the line is not a comment,
the parser stores the trimmed value under the trimmed key in the current
section; storing overwrites: reading a just-stored key always yields the
stored value (duplicates raise no error). -/
theorem parseLine_keyValue (cs : ConfigSections) (sec line : String)
    (k v : List Char) (m : List (String × String)) (key val : String)
    (ht : trimList line.data = k ++ '=' :: v)
    (hk : '=' ∉ k)
    (hc : isCommentLine (k ++ '=' :: v) = false) :
    parseLine (some sec, cs) line =
      (some sec, storeInSection cs sec (String.mk (trimList k)) (String.mk (trimList v))) ∧
    getField (storeKV m key val) key = some val := by
  refine ⟨?_, getField_storeKV m key val⟩
  have hne : (k ++ '=' :: v).isEmpty = false := by cases k <;> rfl
  have hni : ¬ (k ++ '=' :: v = "[Interface]".data) := by
    intro h
    have : '=' ∈ "[Interface]".data := by
      rw [← h]
      exact List.mem_append_right k (List.mem_cons_self '=' v)
    exact absurd this (by decide)
  have hnp : ¬ (k ++ '=' :: v = "[Peer]".data) := by
    intro h
    have : '=' ∈ "[Peer]".data := by
      rw [← h]
      exact List.mem_append_right k (List.mem_cons_self '=' v)
    exact absurd this (by decide)
  have hcont : containsChar '=' (k ++ '=' :: v) = true :=
    (containsChar_iff '=' (k ++ '=' :: v)).mpr
      (List.mem_append_right k (List.mem_cons_self '=' v))
  simp only [parseLine, ht, hne, hc, Bool.or_self, Bool.false_eq_true, if_false,
    if_neg hni, if_neg hnp, hcont, if_true]
  rw [splitOnChar_append_cons '=' v k hk]
  simp only [List.headD_cons, List.tail_cons, joinList_splitOnChar]

/-- Witness for C7 at the concrete line `"PrivateKey = abc=def"`. -/
theorem parseLine_keyValue_witness :
    parseLine (some "Interface", ⟨[], []⟩) "PrivateKey = abc=def" =
      (some "Interface",
        storeInSection ⟨[], []⟩ "Interface"
          (String.mk (trimList "PrivateKey ".data))
          (String.mk (trimList " abc=def".data))) ∧
    getField (storeKV [("PrivateKey", "old")] "PrivateKey" "new") "PrivateKey" =
      some "new" :=
  parseLine_keyValue ⟨[], []⟩ "Interface" "PrivateKey = abc=def"
    "PrivateKey ".data " abc=def".data [("PrivateKey", "old")] "PrivateKey" "new"
    (by decide) (by decide) (by decide)

/-! ## Claim C8 — numeric range fields -/

/-- C8: for a present MTU or PersistentKeepAlive value, an error is
emitted iff `parseInt` fails (non-numeric) or the parsed integer falls
outside the declared range (`[576, 65535]` for MTU, `[0, 65535]` for
PersistentKeepAlive); in particular `PersistentKeepAlive = 70000` yields
the error citing `[0, 65535]` and an invalid overall result. -/
theorem numericRange_spec :
    (∀ v : String, v ≠ "" →
      ((mtuErrors (some v) ≠ []) ↔
        (jsParseInt v = none ∨
          ∃ n : Int, jsParseInt v = some n ∧ (n < 576 ∨ 65535 < n))) ∧
      ((keepAliveErrors (some v) ≠ []) ↔
        (jsParseInt v = none ∨
          ∃ n : Int, jsParseInt v = some n ∧ (n < 0 ∨ 65535 < n)))) ∧
    keepAliveErrors (some "70000") =
      ["Invalid PersistentKeepAlive value (must be between 0 and 65535)"] ∧
    (validateWireguardConfig (some "[Peer]\nPersistentKeepAlive = 70000")).valid = false ∧
    "Invalid PersistentKeepAlive value (must be between 0 and 65535)" ∈
      (validateWireguardConfig (some "[Peer]\nPersistentKeepAlive = 70000")).errors := by
  refine ⟨?_, by decide, by decide, by decide⟩
  intro v hv
  have htr : truthyField (some v) = true := by simp [truthyField, hv]
  constructor
  · unfold mtuErrors
    rw [htr]
    cases hp : jsParseInt (fieldStr (some v)) with
    | none => simp [jsIsNaN, jsLt, jsGt, fieldStr, hp] at hp ⊢
    | some n =>
      have hp' : jsParseInt v = some n := by simpa [fieldStr] using hp
      by_cases hcond : n < 576 ∨ 65535 < n
      · simp [jsIsNaN, jsLt, jsGt, hp', hcond]
      · push_neg at hcond
        simp [jsIsNaN, jsLt, jsGt, hp', Int.not_lt.mpr hcond.1, Int.not_lt.mpr hcond.2]
  · unfold keepAliveErrors
    rw [htr]
    cases hp : jsParseInt (fieldStr (some v)) with
    | none => simp [jsIsNaN, jsLt, jsGt, fieldStr, hp] at hp ⊢
    | some n =>
      have hp' : jsParseInt v = some n := by simpa [fieldStr] using hp
      by_cases hcond : n < 0 ∨ 65535 < n
      · simp [jsIsNaN, jsLt, jsGt, hp', hcond]
      · push_neg at hcond
        simp [jsIsNaN, jsLt, jsGt, hp', Int.not_lt.mpr hcond.1, Int.not_lt.mpr hcond.2]

/-- Witness for C8's quantified part at the concrete value `"70000"`. -/
theorem numericRange_spec_witness :
    ((mtuErrors (some "70000") ≠ []) ↔
      (jsParseInt "70000" = none ∨
        ∃ n : Int, jsParseInt "70000" = some n ∧ (n < 576 ∨ 65535 < n))) ∧
    ((keepAliveErrors (some "70000") ≠ []) ↔
      (jsParseInt "70000" = none ∨
        ∃ n : Int, jsParseInt "70000" = some n ∧ (n < 0 ∨ 65535 < n))) :=
  numericRange_spec.1 "70000" (by decide)

/-! ## Claim C9 — `valid` iff no errors -/

/-- C9: for both validation operations, the returned `valid` flag equals
the emptiness of the returned error list. -/
theorem valid_iff_no_errors :
    (∀ input : Option String,
      (validateWireguardConfig input).valid =
        (validateWireguardConfig input).errors.isEmpty) ∧
    (∀ fd : FormRecord,
      (validateFormRecord fd).valid = (validateFormRecord fd).errors.isEmpty) := by
  constructor
  · intro input
    cases input with
    | none => rfl
    | some s =>
      by_cases hs : s = ""
      · subst hs; rfl
      · simp only [validateWireguardConfig]
        rw [if_neg hs]
        rfl
  · intro fd
    rfl

/-! ## Claim C10 — exception behavior -/

/-- C10, counterexample: a `null`/`undefined` argument to the form
validator throws (the first property access fails), so not every input
degrades to an error-list entry. -/
theorem validateFormData_null_throws :
    exceptOk (validateFormData FormInput.nullish) = false ∧
    validateFormData FormInput.nullish =
      Except.error "TypeError: Cannot read properties of null (reading PrivateKey)" :=
  ⟨rfl, rfl⟩

/-- C10, amended: for every object (record) argument the form validator
returns normally with its accumulated error list — malformed field
values never throw; only the `null`/missing-argument case does.  (The
text-config validator is a total function of its input in this
embedding: every input, including the guarded ones, produces a
result.) -/
theorem validateFormData_record_ok :
    ∀ fd : FormRecord,
      exceptOk (validateFormData (FormInput.record fd)) = true ∧
      validateFormData (FormInput.record fd) = Except.ok (validateFormRecord fd) :=
  fun _ => ⟨rfl, rfl⟩
